import Mathlib

/-!
Verification development for the dbxdebug repository.

Embedded here are: the RSP packet codec and the exchange engine's retry
loop (the gdb module is not among the sources, so those two are modelled
from the specification), the click command handlers of `cli.py`, and the
capture-path utilities of `capture_io.py`.  Byte strings are `List Nat`,
path strings are `List Char`.
-/

/-- ASCII byte values of a string. -/
def ascii (s : String) : List Nat := s.data.map (fun c => c.toNat)

/-- Lower-case hexadecimal digit byte for a value below 16. -/
def hexDigitByte (n : Nat) : Nat := if n < 10 then 48 + n else 87 + n

/-- Numeric value of a hexadecimal digit byte (either case), if any. -/
def hexDigitVal (c : Nat) : Option Nat :=
  if 48 ≤ c ∧ c ≤ 57 then some (c - 48)
  else if 97 ≤ c ∧ c ≤ 102 then some (c - 87)
  else if 65 ≤ c ∧ c ≤ 70 then some (c - 55)
  else none

inductive CodecError where
  | framing
  | checksum
deriving DecidableEq

/-- Modelled from the spec: `encode(payload)` prepends `$` and appends `#`
followed by the two lower-case hex digits of the checksum (sum of the
payload byte values mod 256).  The gdb module itself is not among the
sources. -/
def rspEncode (p : List Nat) : List Nat :=
  36 :: (p ++ [35, hexDigitByte (p.sum % 256 / 16), hexDigitByte (p.sum % 256 % 16)])

/-- Helper for `rspDecode`: processes the wire bytes after `$`, reversed,
so the two checksum digits and the `#` marker come first. -/
def rspDecodeAux (rev : List Nat) : Except CodecError (List Nat) :=
  match rev with
  | d2 :: d1 :: hash :: payloadRev =>
    if hash = 35 then
      match hexDigitVal d1, hexDigitVal d2 with
      | some h, some l =>
        if 16 * h + l = payloadRev.reverse.sum % 256 then Except.ok payloadRev.reverse
        else Except.error CodecError.checksum
      | _, _ => Except.error CodecError.framing
    else Except.error CodecError.framing
  | _ => Except.error CodecError.framing

/-- Modelled from the spec: `decode(wire_bytes)` strips the
`$ <payload> # <cc>` framing and verifies the checksum, failing with
`ChecksumError` on a mismatch.  The gdb module itself is not among the
sources. -/
def rspDecode (w : List Nat) : Except CodecError (List Nat) :=
  match w with
  | c :: rest => if c = 36 then rspDecodeAux rest.reverse else Except.error CodecError.framing
  | [] => Except.error CodecError.framing

/-- What the transport yields for one attempt: a positive ack followed by
a full reply packet, a negative ack, or no ack within the timeout. -/
inductive AckResponse where
  | positive (replyWire : List Nat)
  | negative
  | timeout

inductive ExchangeError where
  | transportError
deriving DecidableEq

/-- Modelled from the spec: the bounded retry loop of the exchange engine.
Each iteration transmits the framed packet once; a positive ack followed
by a reply packet with a valid checksum yields the decoded payload, while
a negative ack, a timeout, or a checksum failure consumes one attempt and
retransmits; exhausting the attempts fails with `TransportError`.  The
first component collects every transmitted wire packet.  The gdb module
itself is not among the sources. -/
def exchangeLoop (transport : Nat → AckResponse) (p : List Nat) :
    Nat → Nat → List (List Nat) × Except ExchangeError (List Nat)
  | 0, _ => ([], Except.error ExchangeError.transportError)
  | n + 1, attempt =>
    match transport attempt with
    | AckResponse.positive replyWire =>
      match rspDecode replyWire with
      | Except.ok reply => ([rspEncode p], Except.ok reply)
      | Except.error _ =>
        let r := exchangeLoop transport p n (attempt + 1)
        (rspEncode p :: r.1, r.2)
    | _ =>
      let r := exchangeLoop transport p n (attempt + 1)
      (rspEncode p :: r.1, r.2)

/-- Modelled from the spec: `exchange(payload)` with a configured maximum
attempt count; returns the transmitted packets and the outcome. -/
def exchange (maxAttempts : Nat) (transport : Nat → AckResponse) (p : List Nat) :
    List (List Nat) × Except ExchangeError (List Nat) :=
  exchangeLoop transport p maxAttempts 1

/-- A Python exception as seen by the CLI handlers: its class name and
its message. -/
structure PyError where
  kind : List Nat
  message : List Nat
deriving DecidableEq

/-- Python `str(e)` on an exception: the message; the class name is not
part of it. -/
def pyStr (e : PyError) : List Nat := e.message

/-- One line the CLI prints, and whether it goes to stderr. -/
structure OutLine where
  text : List Nat
  isErr : Bool
deriving DecidableEq

/-- Python `bytes.decode()` restricted to the protocol's ASCII payloads:
succeeds exactly on ASCII byte values (anything else raises, modelled as
`none`). -/
def pyBytesDecodeAscii (b : List Nat) : Option (List Nat) :=
  if b.all (fun x => decide (x < 128)) then some b else none

/-- The `Error: {e}` line printed by the generic exception handler of
every gdb and screen command in `cli.py`. -/
def cliErrorLine (e : PyError) : OutLine := ⟨ascii "Error: " ++ pyStr e, true⟩

/-- The `read-mem` handler of `cli.py` (lines 56 to 74), raw-output path:
on success the bytes go to stdout and the exit status is 0; any exception
is printed as `Error: {e}` on stderr and the exit status is 1. -/
def gdb_read_mem_run (result : Except PyError (List Nat)) : List OutLine × Nat :=
  match result with
  | Except.ok data => ([⟨data, false⟩], 0)
  | Except.error e => ([cliErrorLine e], 1)

/-- The `break` handler of `cli.py` (lines 115 to 129): a `false` from
`set_breakpoint` prints a failure message on stderr and exits with 1;
`true` prints a confirmation and exits with 0; an exception is printed as
`Error: {e}` and exits with 1. -/
def gdb_break_run (address : List Nat) (result : Except PyError Bool) :
    List OutLine × Nat :=
  match result with
  | Except.ok true => ([⟨ascii "Breakpoint set at " ++ address, false⟩], 0)
  | Except.ok false => ([⟨ascii "Failed to set breakpoint at " ++ address, true⟩], 1)
  | Except.error e => ([cliErrorLine e], 1)

/-- The `step` handler of `cli.py` (lines 132 to 142): the reply bytes of
`step()` are decoded as text and printed as `Stop reason: ...`; a decode
failure, like any exception, takes the generic error path. -/
def gdb_step_run (result : Except PyError (List Nat)) : List OutLine × Nat :=
  match result with
  | Except.ok response =>
    match pyBytesDecodeAscii response with
    | some t => ([⟨ascii "Stop reason: " ++ t, false⟩], 0)
    | none => ([⟨ascii "Error: unicode decode failed", true⟩], 1)
  | Except.error e => ([cliErrorLine e], 1)

/-- How the blocking `continue_execution()` call can end. -/
inductive ContinueOutcome where
  | reply (response : List Nat)
  | keyboardInterrupt
  | raises (e : PyError)

/-- The `continue` handler of `cli.py` (lines 145 to 158): it first echoes
a banner, then either prints the decoded stop reason (exit 0), handles
Ctrl+C by printing `Interrupted` (exit 0), or prints `Error: {e}` on
stderr and exits with 1. -/
def gdb_continue_run (outcome : ContinueOutcome) : List OutLine × Nat :=
  let banner : OutLine := ⟨ascii "Continuing... (Ctrl+C to interrupt)", false⟩
  match outcome with
  | ContinueOutcome.reply response =>
    match pyBytesDecodeAscii response with
    | some t => ([banner, ⟨ascii "Stop reason: " ++ t, false⟩], 0)
    | none => ([banner, ⟨ascii "Error: unicode decode failed", true⟩], 1)
  | ContinueOutcome.keyboardInterrupt =>
    ([banner, ⟨ascii "\nInterrupted", false⟩], 0)
  | ContinueOutcome.raises e => ([banner, cliErrorLine e], 1)

inductive BreakpointDecodeError where
  | protocolError
deriving DecidableEq

/-- Modelled from the spec: decoding of the `Z0`/`z0` breakpoint reply —
`OK` reports success, an empty reply (operation unsupported by the stub)
yields `false` rather than an error; anything else is a protocol error.
The gdb module itself is not among the sources. -/
def decodeSetBreakpointReply (reply : List Nat) :
    Except BreakpointDecodeError Bool :=
  if reply = ascii "OK" then Except.ok true
  else if reply = [] then Except.ok false
  else Except.error BreakpointDecodeError.protocolError

/-- The structured stop-reply descriptor of the spec:
`StopReply{signal, reason}`, the reason being the named fields of a `T`
packet. -/
structure StopReply where
  signal : Nat
  reason : List (List Nat × List Nat)
deriving DecidableEq

/-- Modelled from the spec: the `name:value;...` fields of a `T` stop
reply. -/
def parseStopFields (rest : List Nat) : List (List Nat × List Nat) :=
  ((rest.splitOn 59).filter (fun f => decide (f ≠ []))).map
    (fun f => (f.takeWhile (fun c => decide (c ≠ 58)),
      (f.dropWhile (fun c => decide (c ≠ 58))).drop 1))

/-- Modelled from the spec: decoding of a stop-reply payload `S<nn>` or
`T<nn><name>:<value>;...` into the structured `StopReply` descriptor; the
signal number is hexadecimal.  The gdb module itself is not among the
sources. -/
def decodeStopReply (p : List Nat) : Option StopReply :=
  match p with
  | 83 :: h :: l :: rest =>
    match hexDigitVal h, hexDigitVal l, rest with
    | some a, some b, [] => some ⟨16 * a + b, []⟩
    | _, _, _ => none
  | 84 :: h :: l :: rest =>
    match hexDigitVal h, hexDigitVal l with
    | some a, some b => some ⟨16 * a + b, parseStopFields rest⟩
    | _, _ => none
  | _ => none

/-- The per-group context `cli.py` stores in `ctx.obj`. -/
structure GdbCtx where
  gdb_host : String
  gdb_port : Nat
deriving DecidableEq

/-- A click option: the provided value, or the declared default. -/
def clickOption {α : Type} (dflt : α) (provided : Option α) : α :=
  provided.getD dflt

/-- The `gdb` command group of `cli.py` (lines 45 to 53): `--host`
defaults to localhost and `--port` defaults to 2159. -/
def gdb_group (host : Option String) (port : Option Nat) : GdbCtx :=
  ⟨clickOption "localhost" host, clickOption 2159 port⟩

/-- The `screen` command group of `cli.py` (lines 252 to 260): the same
defaults as the `gdb` group. -/
def screen_group (host : Option String) (port : Option Nat) : GdbCtx :=
  ⟨clickOption "localhost" host, clickOption 2159 port⟩

/-- The constructor arguments each command passes to `GDBClient`:
`GDBClient(ctx.obj["gdb_host"], ctx.obj["gdb_port"])` — host and port
only. -/
def mkGDBClientArgs (ctx : GdbCtx) : String × Nat := (ctx.gdb_host, ctx.gdb_port)

/-- One loguru sink: its target stream and its level. -/
structure LogSink where
  target : String
  level : String
deriving DecidableEq

/-- The module-import logging setup of `cli.py` (lines 22 to 24): the
default loguru sink is removed and a stderr sink at level WARNING is
added, as process-wide state. -/
def cliModuleLoggerInit : List LogSink := [⟨"stderr", "WARNING"⟩]

/-- The `main` group callback of `cli.py` (lines 27 to 37): `--debug`
replaces the process-wide logger sinks with a stderr DEBUG sink,
otherwise `--verbose` replaces them with an INFO sink, otherwise the
state is left untouched. -/
def main_logging (verbose debug : Bool) (s : List LogSink) : List LogSink :=
  if debug then [⟨"stderr", "DEBUG"⟩]
  else if verbose then [⟨"stderr", "INFO"⟩]
  else s

/-- The final path component, `Path.name`: the characters after the last
slash. -/
def pathFileName (p : List Char) : List Char :=
  (p.reverse.takeWhile (fun c => decide (c ≠ '/'))).reverse

/-- `Path.suffix`: the extension of the final component, taken from its
last dot; empty when there is no dot or the dot is leading or trailing. -/
def pathSuffix (p : List Char) : List Char :=
  let n := pathFileName p
  let k := (n.reverse.takeWhile (fun c => decide (c ≠ '.'))).length
  if k < n.length ∧ 0 < k ∧ k + 1 < n.length then n.drop (n.length - (k + 1)) else []

def captureExt : List Char := ".capture.gz".toList

def pickleExt : List Char := ".pickle".toList

/-- The path `save_capture` actually writes to (`capture_io.py`, lines 37
to 55): a name already ending in `.capture.gz` is kept; otherwise a
`.pickle`, `.pkl` or `.gz` suffix is replaced through `with_suffix`;
otherwise `.capture.gz` is appended to the whole path string. -/
def save_capture_path (p : List Char) : List Char :=
  if captureExt <:+ pathFileName p then p
  else if pathSuffix p = ".pickle".toList ∨ pathSuffix p = ".pkl".toList ∨
      pathSuffix p = ".gz".toList then
    p.take (p.length - (pathSuffix p).length) ++ captureExt
  else p ++ captureExt

/-- Python `s.replace(pat, "")`: remove every occurrence of `pat`,
scanning left to right without rescanning removed text. -/
def removeAll (s pat : List Char) : List Char :=
  match s with
  | [] => []
  | c :: rest =>
    if pat ≠ [] ∧ pat <+: (c :: rest) then removeAll ((c :: rest).drop pat.length) pat
    else c :: removeAll rest pat
termination_by s.length
decreasing_by
  · rename_i h
    have h2 : 0 < pat.length := List.length_pos.mpr h.1
    simp only [List.length_drop, List.length_cons]
    omega
  · simp only [List.length_cons]
    omega

/-- `get_capture_path` (`capture_io.py`, lines 58 to 74): strips
`.pickle` and `.capture.gz` occurrences from the base name, then joins
the output directory with `base_name + ".capture.gz"`; the result is the
directory paired with the file name. -/
def get_capture_path (base_name : List Char) (output_dir : List Char) :
    List Char × List Char :=
  (output_dir, removeAll (removeAll base_name pickleExt) captureExt ++ captureExt)

/-- No nonempty proper prefix of `pat` is also a suffix of `pat`. -/
def NoProperBorder (pat : List Char) : Prop :=
  ∀ k, k < pat.length → 0 < k → pat.take k ≠ pat.drop (pat.length - k)

instance (pat : List Char) : Decidable (NoProperBorder pat) := by
  unfold NoProperBorder; infer_instance

/-- No splitting of `pat` into nonempty `s ++ t` has `t` a prefix of `y`,
so no occurrence of `pat` can straddle the boundary of an append `x ++ y`. -/
def NoCrossOccurrence (pat y : List Char) : Prop :=
  ∀ k, k < pat.length → 0 < k → ¬ (pat.drop k <+: y)

instance (pat y : List Char) : Decidable (NoCrossOccurrence pat y) := by
  unfold NoCrossOccurrence; infer_instance

theorem infixOfPref {α : Type} {l₁ l₂ : List α} (h : l₁ <+: l₂) : l₁ <:+: l₂ := by
  obtain ⟨t, ht⟩ := h
  exact ⟨[], t, ht⟩

theorem infixOfSuff {α : Type} {l₁ l₂ : List α} (h : l₁ <:+ l₂) : l₁ <:+: l₂ := by
  obtain ⟨s, hs⟩ := h
  exact ⟨s, [], by rw [List.append_nil]; exact hs⟩

theorem hexVal_hexDigitByte : ∀ n, n < 16 → hexDigitVal (hexDigitByte n) = some n := by
  decide

/-- C1: decoding an encoded packet returns the original payload — for
every byte payload `P`, `rspDecode (rspEncode P) = Except.ok P`. -/
theorem rsp_decode_encode_roundtrip (p : List Nat) (_hbytes : ∀ b ∈ p, b < 256) :
    rspDecode (rspEncode p) = Except.ok p := by
  have hh : p.sum % 256 / 16 < 16 := by omega
  have hl : p.sum % 256 % 16 < 16 := by omega
  have e1 := hexVal_hexDigitByte _ hh
  have e2 := hexVal_hexDigitByte _ hl
  have hc : 16 * (p.sum % 256 / 16) + p.sum % 256 % 16 = p.sum % 256 := by omega
  simp [rspEncode, rspDecode, rspDecodeAux, e1, e2, hc]

/-- C1 witness: the round-trip at the concrete payload `m100,4`. -/
theorem rsp_decode_encode_roundtrip_witness :
    (∀ b ∈ ascii "m100,4", b < 256) ∧
      rspDecode (rspEncode (ascii "m100,4")) = Except.ok (ascii "m100,4") :=
  ⟨by decide, rsp_decode_encode_roundtrip (ascii "m100,4") (by decide)⟩

theorem exchangeLoop_negative (t : Nat → AckResponse)
    (ht : ∀ i, t i = AckResponse.negative) (p : List Nat) :
    ∀ n a, exchangeLoop t p n a =
      (List.replicate n (rspEncode p), Except.error ExchangeError.transportError) := by
  intro n
  induction n with
  | zero => intro a; rfl
  | succ m ih =>
    intro a
    simp [exchangeLoop, ht a, ih (a + 1), List.replicate_succ]

/-- C2: with a transport that answers every attempt with a negative ack,
`exchange` fails with `TransportError` after exactly the configured
maximum number of attempts, and the framed packet is transmitted exactly
that many times — no more, no fewer. -/
theorem exchange_always_negative_retry_bound (maxAttempts : Nat) (p : List Nat)
    (t : Nat → AckResponse) (ht : ∀ i, t i = AckResponse.negative) :
    (exchange maxAttempts t p).1 = List.replicate maxAttempts (rspEncode p) ∧
      (exchange maxAttempts t p).1.length = maxAttempts ∧
      (exchange maxAttempts t p).2 = Except.error ExchangeError.transportError := by
  unfold exchange
  rw [exchangeLoop_negative t ht p maxAttempts 1]
  exact ⟨rfl, List.length_replicate .., rfl⟩

/-- C2 witness: three configured attempts against an always-negative
transport transmit the framed `g` packet exactly three times and fail
with `TransportError`. -/
theorem exchange_always_negative_retry_bound_witness :
    (exchange 3 (fun _ => AckResponse.negative) (ascii "g")).1 =
        List.replicate 3 (rspEncode (ascii "g")) ∧
      (exchange 3 (fun _ => AckResponse.negative) (ascii "g")).1.length = 3 ∧
      (exchange 3 (fun _ => AckResponse.negative) (ascii "g")).2 =
        Except.error ExchangeError.transportError :=
  exchange_always_negative_retry_bound 3 (ascii "g") _ (fun _ => rfl)

theorem pathFileName_suffix (p : List Char) : pathFileName p <:+ p := by
  unfold pathFileName
  have h := List.takeWhile_prefix (l := p.reverse) (fun c => decide (c ≠ '/'))
  have h2 := List.reverse_suffix.mpr h
  simpa using h2

/-- C8: whatever the input path, the file path `save_capture` actually
writes to ends with `.capture.gz`. -/
theorem save_capture_path_ends_with_capture_gz (p : List Char) :
    captureExt <:+ save_capture_path p := by
  unfold save_capture_path
  split
  · next hkeep => exact hkeep.trans (pathFileName_suffix p)
  · split
    · exact List.suffix_append _ _
    · exact List.suffix_append _ _

theorem removeAll_of_not_infix {s pat : List Char} (h : ¬ pat <:+: s) :
    removeAll s pat = s := by
  induction s with
  | nil => rw [removeAll]
  | cons c rest ih =>
    rw [removeAll]
    rw [if_neg]
    · rw [ih]
      intro hin
      exact h (List.infix_cons hin)
    · rintro ⟨-, hpre⟩
      exact h (infixOfPref hpre)

theorem removeAll_append_self {pat : List Char} (hne : pat ≠ [])
    (hnb : NoProperBorder pat) :
    ∀ b : List Char, ¬ pat <:+: b → removeAll (b ++ pat) pat = b := by
  intro b
  induction b with
  | nil =>
    intro _
    cases pat with
    | nil => exact absurd rfl hne
    | cons c pat' =>
      rw [List.nil_append, removeAll, if_pos ⟨hne, List.prefix_refl _⟩,
        List.drop_length, removeAll]
  | cons c rest ih =>
    intro hnin
    have hrest : ¬ pat <:+: rest := fun hin => hnin (List.infix_cons hin)
    have hstep : ¬ pat <+: c :: (rest ++ pat) := by
      intro hp
      have hx : (c :: rest) <+: (c :: rest) ++ pat := List.prefix_append _ _
      rw [List.cons_append] at hx
      rcases List.prefix_or_prefix_of_prefix hp hx with hcase | hcase
      · exact hnin (infixOfPref hcase)
      · obtain ⟨t, ht⟩ := hcase
        by_cases htnil : t = []
        · subst htnil
          rw [List.append_nil] at ht
          rw [← ht] at hnin
          exact hnin (List.infix_refl _)
        · have htpos : 0 < t.length := List.length_pos.mpr htnil
          have hlen := congrArg List.length ht
          simp only [List.length_append, List.length_cons] at hlen
          have htpre : t <+: pat := by
            have h2 : (c :: rest) ++ t <+: (c :: rest) ++ pat := by
              rw [ht, List.cons_append]
              exact hp
            exact (List.prefix_append_right_inj _).mp h2
          have htake : pat.take t.length = t := (List.prefix_iff_eq_take.mp htpre).symm
          have hdrop : pat.drop (pat.length - t.length) = t := by
            have hlen2 : pat.length - t.length = (c :: rest).length := by
              simp only [List.length_cons]
              omega
            rw [hlen2, ← ht, List.drop_left]
          exact hnb t.length (by omega) htpos (htake.trans hdrop.symm)
    rw [List.cons_append, removeAll, if_neg]
    · rw [ih hrest]
    · rintro ⟨-, hpre⟩
      exact hstep hpre

theorem infix_append_decomp {pat : List Char} :
    ∀ x y : List Char, pat <:+: x ++ y →
      pat <:+: x ∨ pat <:+: y ∨
        ∃ s t, s ++ t = pat ∧ s ≠ [] ∧ t ≠ [] ∧ s <:+ x ∧ t <+: y := by
  intro x
  induction x with
  | nil =>
    intro y h
    rw [List.nil_append] at h
    exact Or.inr (Or.inl h)
  | cons c x' ih =>
    intro y h
    rw [List.cons_append] at h
    rcases List.infix_cons_iff.mp h with hp | hin
    · rw [← List.cons_append] at hp
      have hx : (c :: x') <+: (c :: x') ++ y := List.prefix_append _ _
      rcases List.prefix_or_prefix_of_prefix hp hx with hcase | hcase
      · exact Or.inl (infixOfPref hcase)
      · obtain ⟨t, ht⟩ := hcase
        by_cases htnil : t = []
        · subst htnil
          rw [List.append_nil] at ht
          exact Or.inl (ht ▸ List.infix_refl _)
        · refine Or.inr (Or.inr ⟨c :: x', t, ht, by simp, htnil, List.suffix_refl _, ?_⟩)
          have : (c :: x') ++ t <+: (c :: x') ++ y := ht ▸ hp
          exact (List.prefix_append_right_inj _).mp this
    · rcases ih y hin with hcase | hcase | ⟨s, t, hst, hs, htn, hsx, hty⟩
      · exact Or.inl (List.infix_cons hcase)
      · exact Or.inr (Or.inl hcase)
      · exact Or.inr (Or.inr ⟨s, t, hst, hs, htn, hsx.trans (List.suffix_cons c x'), hty⟩)

theorem not_infix_append {pat x y : List Char} (hx : ¬ pat <:+: x)
    (hy : ¬ pat <:+: y) (hc : NoCrossOccurrence pat y) : ¬ pat <:+: x ++ y := by
  intro h
  rcases infix_append_decomp x y h with hcase | hcase | ⟨s, t, hst, hs, htn, hsx, hty⟩
  · exact hx hcase
  · exact hy hcase
  · have htake : pat.take s.length = s := by rw [← hst, List.take_left]
    have hdropt : pat.drop s.length = t := by rw [← hst, List.drop_left]
    have hk1 : s.length < pat.length := by
      have := congrArg List.length hst
      simp only [List.length_append] at this
      have := List.length_pos.mpr htn
      omega
    have hk2 : 0 < s.length := List.length_pos.mpr hs
    exact hc s.length hk1 hk2 (hdropt ▸ hty)

/-- C9: `get_capture_path` is insensitive to capture extensions in its
base name — appending `.pickle` or `.capture.gz` to a base name that
contains neither yields the same path as the bare base name — and the
returned path always ends with `.capture.gz`. -/
theorem get_capture_path_extension_insensitive
    (b d : List Char) (hp : ¬ pickleExt <:+: b) (hc : ¬ captureExt <:+: b) :
    get_capture_path (b ++ pickleExt) d = get_capture_path b d ∧
      get_capture_path (b ++ captureExt) d = get_capture_path b d ∧
      captureExt <:+ (get_capture_path b d).2 := by
  have hb1 : removeAll b pickleExt = b := removeAll_of_not_infix hp
  have hb2 : removeAll b captureExt = b := removeAll_of_not_infix hc
  have h1 : removeAll (b ++ pickleExt) pickleExt = b :=
    removeAll_append_self (by decide) (by decide) b hp
  have hnp : ¬ pickleExt <:+: b ++ captureExt :=
    not_infix_append hp (by decide) (by decide)
  have h2 : removeAll (b ++ captureExt) pickleExt = b ++ captureExt :=
    removeAll_of_not_infix hnp
  have h3 : removeAll (b ++ captureExt) captureExt = b :=
    removeAll_append_self (by decide) (by decide) b hc
  refine ⟨?_, ?_, ?_⟩
  · simp [get_capture_path, h1, hb1, hb2]
  · simp [get_capture_path, h2, h3, hb1, hb2]
  · exact List.suffix_append _ _

/-- C9 witness: the insensitivity at the concrete base name `shot` and
directory `.`. -/
theorem get_capture_path_extension_insensitive_witness :
    (¬ pickleExt <:+: "shot".toList) ∧ (¬ captureExt <:+: "shot".toList) ∧
      (get_capture_path ("shot".toList ++ pickleExt) ".".toList =
          get_capture_path "shot".toList ".".toList ∧
        get_capture_path ("shot".toList ++ captureExt) ".".toList =
          get_capture_path "shot".toList ".".toList ∧
        captureExt <:+ (get_capture_path "shot".toList ".".toList).2) :=
  ⟨by decide, by decide,
    get_capture_path_extension_insensitive _ _ (by decide) (by decide)⟩

/-- C3 counterexample: the claim that the CLI reports a propagated error
together with its kind fails — the handler prints only `Error: {message}`;
for a `MemoryAccessError` with message `E03` the kind appears nowhere in
the output of `read-mem`. -/
theorem cli_error_report_kind_counterexample :
    ¬ (∀ e : PyError, ∃ l ∈ (gdb_read_mem_run (Except.error e)).1,
        e.kind <:+: l.text ∧ e.message <:+: l.text) := by
  intro hclaim
  obtain ⟨l, hmem, hkind, -⟩ :=
    hclaim ⟨ascii "MemoryAccessError", ascii "E03"⟩
  simp only [gdb_read_mem_run, List.mem_singleton] at hmem
  subst hmem
  exact absurd hkind (by decide)

/-- C3 (amended): every propagated error is reported on stderr as
`Error: {message}` — its message, but not its kind — and the process exit
status is 1 (non-zero); shown for the `read-mem` and `continue`
handlers. -/
theorem cli_error_report_message_exit_nonzero (e : PyError) :
    ((gdb_read_mem_run (Except.error e)).2 = 1 ∧
      ∃ l ∈ (gdb_read_mem_run (Except.error e)).1,
        l.isErr = true ∧ e.message <:+: l.text) ∧
    ((gdb_continue_run (ContinueOutcome.raises e)).2 = 1 ∧
      ∃ l ∈ (gdb_continue_run (ContinueOutcome.raises e)).1,
        l.isErr = true ∧ e.message <:+: l.text) := by
  refine ⟨⟨rfl, ⟨cliErrorLine e, ?_, rfl, ?_⟩⟩, ⟨rfl, ⟨cliErrorLine e, ?_, rfl, ?_⟩⟩⟩
  · exact List.mem_singleton_self _
  · exact infixOfSuff (List.suffix_append _ _)
  · exact List.mem_cons_of_mem _ (List.mem_singleton_self _)
  · exact infixOfSuff (List.suffix_append _ _)

/-- C4 counterexample: what the `step` consumer observes is not a function
of the decoded `StopReply` descriptor — the payloads `S0A` and `S0a`
decode to the same descriptor, yet the CLI output differs, because the
handler prints the raw reply bytes. -/
theorem step_output_not_function_of_stop_reply :
    ¬ (∀ p₁ p₂ : List Nat, decodeStopReply p₁ = decodeStopReply p₂ →
        gdb_step_run (Except.ok p₁) = gdb_step_run (Except.ok p₂)) := by
  intro hclaim
  have h := hclaim (ascii "S0A") (ascii "S0a") (by decide)
  exact absurd h (by decide)

/-- C4 (amended): the `step` and `continue` commands receive the raw
stop-reply payload bytes and print them verbatim, so the CLI output
determines the payload: two payloads give equal output exactly when they
are equal. -/
theorem step_continue_output_determines_raw_payload
    (p₁ p₂ : List Nat) (h₁ : ∀ b ∈ p₁, b < 128) (h₂ : ∀ b ∈ p₂, b < 128) :
    (gdb_step_run (Except.ok p₁) = gdb_step_run (Except.ok p₂) ↔ p₁ = p₂) ∧
    (gdb_continue_run (ContinueOutcome.reply p₁) =
        gdb_continue_run (ContinueOutcome.reply p₂) ↔ p₁ = p₂) := by
  have d₁ : pyBytesDecodeAscii p₁ = some p₁ := by
    unfold pyBytesDecodeAscii
    rw [if_pos]
    rw [List.all_eq_true]
    intro x hx
    exact decide_eq_true (h₁ x hx)
  have d₂ : pyBytesDecodeAscii p₂ = some p₂ := by
    unfold pyBytesDecodeAscii
    rw [if_pos]
    rw [List.all_eq_true]
    intro x hx
    exact decide_eq_true (h₂ x hx)
  constructor
  · constructor
    · intro h
      simp only [gdb_step_run, d₁, d₂, Prod.mk.injEq, List.cons.injEq,
        OutLine.mk.injEq, List.append_cancel_left_eq] at h
      exact h.1.1.1
    · intro h
      rw [h]
  · constructor
    · intro h
      simp only [gdb_continue_run, d₁, d₂, Prod.mk.injEq, List.cons.injEq,
        OutLine.mk.injEq, List.append_cancel_left_eq] at h
      exact h.1.2.1.1
    · intro h
      rw [h]

/-- C4 witness: the amended statement at the concrete ASCII stop-reply
payloads `S05` and `T05`. -/
theorem step_continue_output_determines_raw_payload_witness :
    (∀ b ∈ ascii "S05", b < 128) ∧ (∀ b ∈ ascii "T05", b < 128) ∧
      ((gdb_step_run (Except.ok (ascii "S05")) =
          gdb_step_run (Except.ok (ascii "T05")) ↔ ascii "S05" = ascii "T05") ∧
        (gdb_continue_run (ContinueOutcome.reply (ascii "S05")) =
            gdb_continue_run (ContinueOutcome.reply (ascii "T05")) ↔
          ascii "S05" = ascii "T05")) :=
  ⟨by decide, by decide,
    step_continue_output_determines_raw_payload _ _ (by decide) (by decide)⟩

/-- C5: an empty reply to a set-breakpoint request decodes to `false`
rather than an error, and the CLI break command is the one that turns the
`false` into a stderr message and a non-zero exit. -/
theorem set_breakpoint_empty_reply_false :
    decodeSetBreakpointReply [] = Except.ok false ∧
      ∀ a : List Nat, (gdb_break_run a (Except.ok false)).2 = 1 ∧
        ∃ l ∈ (gdb_break_run a (Except.ok false)).1, l.isErr = true := by
  refine ⟨rfl, fun a => ⟨rfl, ?_⟩⟩
  exact ⟨⟨ascii "Failed to set breakpoint at " ++ a, true⟩,
    List.mem_singleton_self _, rfl⟩

/-- C6: both the `gdb` and the `screen` command groups default `--port`
to 2159, an explicitly provided port overrides the default, and the
client is constructed with exactly the context's port. -/
theorem gdb_screen_port_default_configurable :
    (gdb_group none none).gdb_port = 2159 ∧
      (screen_group none none).gdb_port = 2159 ∧
      ∀ h p, (gdb_group h (some p)).gdb_port = p ∧
        (screen_group h (some p)).gdb_port = p ∧
        (mkGDBClientArgs (gdb_group h (some p))).2 = p :=
  ⟨rfl, rfl, fun _ _ => ⟨rfl, rfl, rfl⟩⟩

/-- C7 counterexample: there IS process-wide mutable logger state in the
CLI — running the `main` group with `--debug` changes the module-level
logger configuration installed at import time. -/
theorem main_mutates_module_logger :
    main_logging false true cliModuleLoggerInit ≠ cliModuleLoggerInit := by
  decide

/-- C7 (amended): logging in the CLI is module-level mutable state: import
installs a stderr WARNING sink, the `main` group's `--debug` and
`--verbose` flags replace that process-wide state with a DEBUG or INFO
sink (and otherwise leave it untouched), and `GDBClient` is constructed
from host and port only, with no logging configuration passed in. -/
theorem cli_logger_global_state :
    cliModuleLoggerInit = [⟨"stderr", "WARNING"⟩] ∧
      (∀ v s, main_logging v true s = [⟨"stderr", "DEBUG"⟩]) ∧
      (∀ s, main_logging true false s = [⟨"stderr", "INFO"⟩]) ∧
      (∀ s, main_logging false false s = s) ∧
      ∀ ctx, mkGDBClientArgs ctx = (ctx.gdb_host, ctx.gdb_port) :=
  ⟨rfl, fun _ _ => rfl, fun _ => rfl, fun _ => rfl, fun _ => rfl⟩

/-- C10: Ctrl+C during the blocking `continue` prints `Interrupted` on
stdout — not stderr — and the process exits with status 0, unlike the
error path. -/
theorem continue_keyboard_interrupt_exit_zero :
    (gdb_continue_run ContinueOutcome.keyboardInterrupt).2 = 0 ∧
      ∃ l ∈ (gdb_continue_run ContinueOutcome.keyboardInterrupt).1,
        l.isErr = false ∧ ascii "Interrupted" <:+: l.text := by
  refine ⟨rfl, ⟨⟨ascii "\nInterrupted", false⟩, ?_, rfl, ?_⟩⟩
  · exact List.mem_cons_of_mem _ (List.mem_singleton_self _)
  · decide
